import Mathlib

/-!
Verification development for the Air-Scribble telemetry pipeline
(`mngrag.py`).

The numeric pipeline (hysteresis pen-state machine, motion estimation,
exponential smoothing) is embedded over `ℚ`: Python floats are modelled as
exact rationals, so every algebraic statement below is about the real
arithmetic the code implements.  The line parser is embedded over `PFloat`,
rationals extended with `nan` and signed infinities, because Python's
`float()` accepts the tokens `nan`, `inf` and `infinity`.
-/

set_option linter.unusedVariables false

/-- Module-level configuration constants of `mngrag.py`. -/
def DEFAULT_BAUD : ℕ := 115200

def EMG_THRESHOLD : ℚ := 400

def EMG_HYSTERESIS : ℚ := 25

def SMOOTHING : ℚ := 85 / 100

def SENSITIVITY : ℚ := 200

def UDP_PORT : ℕ := 5005

/-- The two values of the `'type'` key of a parsed sample dict. -/
inductive SampleKind where
  | raw
  | orient
  deriving DecidableEq

/-- The dict returned by `parse_line`:
`{'emg': ..., 'type': ..., 'acc': ..., 'gyro': ..., 'orient': ...}`,
generic in the number representation (`ℚ` for the pipeline, `PFloat`
for the parser). -/
structure DataItem (α : Type) where
  emg : α
  type : SampleKind
  acc : Option (α × α × α)
  gyro : Option (α × α × α)
  orient : Option (α × α × α)
  deriving DecidableEq

/-- `orient_to_xy(yaw, pitch, roll, screen_w, screen_h)`:
`x = (yaw / 180.0) * (screen_w / 2) + screen_w / 2`,
`y = -(pitch / 90.0) * (screen_h / 2) + screen_h / 2`.
`roll` is accepted but unused. -/
def orient_to_xy (yaw pitch roll screen_w screen_h : ℚ) : ℚ × ℚ :=
  let x := (yaw / 180) * (screen_w / 2) + screen_w / 2
  let y := -(pitch / 90) * (screen_h / 2) + screen_h / 2
  (x, y)

/-- `acc_to_xy(ax, ay, az, screen_w, screen_h, last_pos, sensitivity)`:
`dx = ax * sensitivity`, `dy = -ay * sensitivity`, added to `last_pos`
(or the screen centre when `last_pos is None`), then clamped with
`max(0, min(screen_w - 1, x))` / `max(0, min(screen_h - 1, y))`.
`az` is accepted but unused. -/
def acc_to_xy (ax ay az screen_w screen_h : ℚ) (last_pos : Option (ℚ × ℚ))
    (sensitivity : ℚ) : ℚ × ℚ :=
  let dx := ax * sensitivity
  let dy := -ay * sensitivity
  let xy : ℚ × ℚ :=
    match last_pos with
    | none => (screen_w / 2 + dx, screen_h / 2 + dy)
    | some p => (p.1 + dx, p.2 + dy)
  (max 0 (min (screen_w - 1) xy.1), max 0 (min (screen_h - 1) xy.2))

/-- The hysteresis update of `pen_down` in `main`:
`if not pen_down and emg > emg_threshold + EMG_HYSTERESIS: pen_down = True`
`elif pen_down and emg < emg_threshold - EMG_HYSTERESIS: pen_down = False`.
`False` models pen `Up`, `True` models pen `Down`. -/
def pen_update (pen_down : Bool) (emg emg_threshold hysteresis : ℚ) : Bool :=
  if pen_down = false ∧ emg_threshold + hysteresis < emg then true
  else if pen_down = true ∧ emg < emg_threshold - hysteresis then false
  else pen_down

/-- One exponential-smoothing step of `main`:
`smooth_pos[i] = smooth_pos[i] * SMOOTHING + target[i] * (1 - SMOOTHING)`. -/
def smooth_step (s target : ℚ) : ℚ :=
  s * SMOOTHING + target * (1 - SMOOTHING)

/-- `n`-fold iteration of `smooth_step` against a constant target. -/
def smooth_iter (target : ℚ) : ℕ → ℚ → ℚ
  | 0, s => s
  | n + 1, s => smooth_step (smooth_iter target n s) target

/-- Mutable pipeline state of `main`'s loop: `pen_down`, `last_pos`,
`smooth_pos`. -/
structure TickState where
  pen_down : Bool
  last_pos : ℚ × ℚ
  smooth_pos : ℚ × ℚ
  deriving DecidableEq

/-- Initial state of `main`: pen up, both positions at the canvas centre. -/
def init_state (screen_w screen_h : ℚ) : TickState :=
  { pen_down := false
    last_pos := (screen_w / 2, screen_h / 2)
    smooth_pos := (screen_w / 2, screen_h / 2) }

def SCREEN_W : ℚ := 1280

def SCREEN_H : ℚ := 720

/-- Python `int()` on a rational: truncation toward zero. -/
def pyInt (q : ℚ) : ℤ :=
  if 0 ≤ q then ⌊q⌋ else ⌈q⌉

def pen_radius : ℕ := 3

/-- Draw primitives emitted to the canvas during a tick. -/
inductive DrawCmd where
  | circle (center : ℤ × ℤ) (radius : ℕ)
  | segment (p0 p1 : ℤ × ℤ) (width : ℕ)
  deriving DecidableEq

/-- Target selection of `main`:
`if latest['type'] == 'orient' and latest['orient']: target = orient_to_xy(...)`
`elif latest['type'] == 'raw' and latest['acc']: target = acc_to_xy(..., last_pos, sensitivity=SENSITIVITY/10.0)`
`else: target = last_pos` (a populated payload tuple is always truthy). -/
def target_of (screen_w screen_h : ℚ) (last_pos : ℚ × ℚ) (latest : DataItem ℚ) :
    ℚ × ℚ :=
  match latest.type, latest.orient, latest.acc with
  | SampleKind.orient, some (yaw, pitch, roll), _ =>
      orient_to_xy yaw pitch roll screen_w screen_h
  | SampleKind.raw, _, some (ax, ay, az) =>
      acc_to_xy ax ay az screen_w screen_h (some last_pos) (SENSITIVITY / 10)
  | _, _, _ => last_pos

/-- The body of `main`'s per-tick sample processing (`if latest is not None:`):
hysteresis update of `pen_down`, target selection, exponential smoothing,
conditional drawing, and `last_pos = curr_pos`. -/
def tick (screen_w screen_h emg_threshold : ℚ) (latest : DataItem ℚ)
    (st : TickState) : TickState × List DrawCmd :=
  let emg := latest.emg
  let pen_down := pen_update st.pen_down emg emg_threshold EMG_HYSTERESIS
  let target := target_of screen_w screen_h st.last_pos latest
  let sx := smooth_step st.smooth_pos.1 target.1
  let sy := smooth_step st.smooth_pos.2 target.2
  let curr_pos : ℚ × ℚ := (sx, sy)
  let draws : List DrawCmd :=
    if pen_down then
      [DrawCmd.circle (pyInt sx, pyInt sy) pen_radius,
       DrawCmd.segment (pyInt st.last_pos.1, pyInt st.last_pos.2)
         (pyInt sx, pyInt sy) (pen_radius * 2)]
    else []
  ({ pen_down := pen_down, last_pos := curr_pos, smooth_pos := curr_pos }, draws)

/-- `main`'s drain loop: `latest = None; while not data_q.empty():
latest = data_q.get_nowait()`.  The queue is a FIFO list, front first. -/
def drain_loop {α : Type} : Option α → List α → Option α × List α
  | latest, [] => (latest, [])
  | _, x :: xs => drain_loop (some x) xs

/-- Drain the queue: discard everything, return the most recently pushed
sample (or none), leaving the queue empty. -/
def drain_latest {α : Type} (q : List α) : Option α × List α :=
  drain_loop none q

/-- `q.put(sample)`: FIFO push appends at the back. -/
def push {α : Type} (q : List α) (x : α) : List α := q ++ [x]

/-- One full consumer tick: drain the queue, then — only when a sample was
returned — run the sample-processing body.  Returns the new state, the draw
commands emitted, and the queue contents left behind. -/
def consume_tick (screen_w screen_h emg_threshold : ℚ) (q : List (DataItem ℚ))
    (st : TickState) : TickState × List DrawCmd × List (DataItem ℚ) :=
  match drain_latest q with
  | (none, q2) => (st, [], q2)
  | (some item, q2) =>
      let r := tick screen_w screen_h emg_threshold item st
      (r.1, r.2, q2)

/-- Membership of a position in the canvas `[0, w-1] × [0, h-1]`. -/
def inBounds (screen_w screen_h : ℚ) (p : ℚ × ℚ) : Prop :=
  0 ≤ p.1 ∧ p.1 ≤ screen_w - 1 ∧ 0 ≤ p.2 ∧ p.2 ≤ screen_h - 1

instance (screen_w screen_h : ℚ) (p : ℚ × ℚ) :
    Decidable (inBounds screen_w screen_h p) := by
  unfold inBounds; infer_instance

/-- Python floats as parsed by `float()`: a finite value (modelled as an
exact rational), an infinity of either sign, or `nan`. -/
inductive PFloat where
  | fin (q : ℚ)
  | inf
  | ninf
  | nan
  deriving DecidableEq

/-- ASCII whitespace recognised by `str.strip()` / `str.split()`. -/
def isPySpace (c : Char) : Bool :=
  c = ' ' || c = '\t' || c = '\n' || c = '\r' || c = Char.ofNat 11 || c = Char.ofNat 12

/-- `line.strip()`. -/
def pyStrip (s : List Char) : List Char :=
  ((s.dropWhile isPySpace).reverse.dropWhile isPySpace).reverse

/-- `s.split()` with no separator: split on runs of whitespace, dropping
empty pieces (`acc` holds the current token reversed). -/
def splitWs_aux : List Char → List Char → List (List Char)
  | acc, [] => if acc.isEmpty then [] else [acc.reverse]
  | acc, c :: cs =>
    if isPySpace c then
      if acc.isEmpty then splitWs_aux [] cs else acc.reverse :: splitWs_aux [] cs
    else splitWs_aux (c :: acc) cs

def py_split (s : List Char) : List (List Char) :=
  splitWs_aux [] s

/-- A `digitpart` of Python's float grammar: a run of decimal digits in
which a single underscore may stand between two digits.  Returns the
accumulated value, the number of digits consumed, and the rest of the
input.  `v` and `n` carry the value and digit count accumulated so far. -/
def digits_aux (v n : ℕ) : List Char → ℕ × ℕ × List Char
  | [] => (v, n, [])
  | c :: cs =>
    if c.isDigit then digits_aux (10 * v + (c.toNat - 48)) (n + 1) cs
    else if c = '_' ∧ 0 < n ∧ (cs.headD ' ').isDigit then
      digits_aux v n cs
    else (v, n, c :: cs)

/-- Python's `float(token)` on a whitespace-free token: optional sign, then
case-insensitively `inf`/`infinity`/`nan`, or a decimal number
`digitpart? ('.' digitpart?)? (('e'|'E') sign? digitpart)?` with at least
one mantissa digit and nothing left over.  Finite values are exact: no
rounding to binary floating point and no overflow to infinity is modelled. -/
def pyFloat (tok : List Char) : Option PFloat :=
  match tok with
  | [] => none
  | _ =>
    let sr : Bool × List Char :=
      match tok with
      | '+' :: r => (false, r)
      | '-' :: r => (true, r)
      | r => (false, r)
    let neg := sr.1
    let rest := sr.2
    let lower := rest.map Char.toLower
    if lower = "inf".toList ∨ lower = "infinity".toList then
      some (if neg then PFloat.ninf else PFloat.inf)
    else if lower = "nan".toList then
      some PFloat.nan
    else
      let ip := digits_aux 0 0 rest
      let fp : ℕ × ℕ × List Char :=
        match ip.2.2 with
        | '.' :: r => digits_aux 0 0 r
        | r => (0, 0, r)
      if ip.2.1 + fp.2.1 = 0 then none
      else
        let mant : ℚ := (ip.1 : ℚ) + (fp.1 : ℚ) / (10 : ℚ) ^ fp.2.1
        match fp.2.2 with
        | [] => some (PFloat.fin (if neg then -mant else mant))
        | e :: r3 =>
          if e = 'e' ∨ e = 'E' then
            let esr : Bool × List Char :=
              match r3 with
              | '+' :: r => (false, r)
              | '-' :: r => (true, r)
              | r => (false, r)
            let ep := digits_aux 0 0 esr.2
            if ep.2.1 = 0 ∨ ep.2.2 ≠ [] then none
            else
              let value := mant * (10 : ℚ) ^ (if esr.1 then -(ep.1 : ℤ) else (ep.1 : ℤ))
              some (PFloat.fin (if neg then -value else value))
          else none

/-- The token list of `parse_line`:
`parts = [p for p in s.replace(',', ' ').split() if p]` applied to the
stripped line. -/
def line_tokens (line : List Char) : List (List Char) :=
  py_split ((pyStrip line).map fun c => if c = ',' then ' ' else c)

/-- `nums = [float(p) for p in parts]`, failing as a whole when any token
fails (`except ValueError: return None`). -/
def line_nums (line : List Char) : Option (List PFloat) :=
  (line_tokens line).mapM pyFloat

/-- `parse_line(line)`: strip; fail on an empty line; tokenize; parse every
token as a float; 7 or more numbers give a `'raw'` sample from the first 7,
4 to 6 numbers give an `'orient'` sample from the first 4, fewer fail. -/
def parse_line (line : List Char) : Option (DataItem PFloat) :=
  if (pyStrip line).isEmpty then none
  else
    match line_nums line with
    | none => none
    | some nums =>
      match nums with
      | emg :: ax :: ay :: az :: gx :: gy :: gz :: _ =>
        some { emg := emg, type := SampleKind.raw, acc := some (ax, ay, az),
               gyro := some (gx, gy, gz), orient := none }
      | emg :: yaw :: pitch :: roll :: _ =>
        some { emg := emg, type := SampleKind.orient, acc := none, gyro := none,
               orient := some (yaw, pitch, roll) }
      | _ => none

/-- Python `<` on floats: `nan` compares false against everything. -/
def PFloat.pyLt : PFloat → PFloat → Bool
  | PFloat.fin a, PFloat.fin b => decide (a < b)
  | PFloat.fin _, PFloat.inf => true
  | PFloat.ninf, PFloat.fin _ => true
  | PFloat.ninf, PFloat.inf => true
  | _, _ => false

/-- Python `+` on floats (`nan` propagates; `inf + -inf` is `nan`). -/
def PFloat.pyAdd : PFloat → PFloat → PFloat
  | PFloat.fin a, PFloat.fin b => PFloat.fin (a + b)
  | PFloat.fin _, PFloat.inf => PFloat.inf
  | PFloat.fin _, PFloat.ninf => PFloat.ninf
  | PFloat.inf, PFloat.fin _ => PFloat.inf
  | PFloat.inf, PFloat.inf => PFloat.inf
  | PFloat.inf, PFloat.ninf => PFloat.nan
  | PFloat.ninf, PFloat.fin _ => PFloat.ninf
  | PFloat.ninf, PFloat.inf => PFloat.nan
  | PFloat.ninf, PFloat.ninf => PFloat.ninf
  | _, _ => PFloat.nan

/-- Python `-` on floats (`nan` propagates; `inf - inf` is `nan`). -/
def PFloat.pySub : PFloat → PFloat → PFloat
  | PFloat.fin a, PFloat.fin b => PFloat.fin (a - b)
  | PFloat.fin _, PFloat.inf => PFloat.ninf
  | PFloat.fin _, PFloat.ninf => PFloat.inf
  | PFloat.inf, PFloat.fin _ => PFloat.inf
  | PFloat.inf, PFloat.ninf => PFloat.inf
  | PFloat.inf, PFloat.inf => PFloat.nan
  | PFloat.ninf, PFloat.fin _ => PFloat.ninf
  | PFloat.ninf, PFloat.inf => PFloat.ninf
  | PFloat.ninf, PFloat.ninf => PFloat.nan
  | _, _ => PFloat.nan

/-- The hysteresis update of `main` as executed on Python float values,
including the non-finite ones a parsed sample may carry. -/
def pen_update_float (pen_down : Bool) (emg emg_threshold hysteresis : PFloat) :
    Bool :=
  if pen_down = false ∧ PFloat.pyLt (PFloat.pyAdd emg_threshold hysteresis) emg = true then true
  else if pen_down = true ∧ PFloat.pyLt emg (PFloat.pySub emg_threshold hysteresis) = true then false
  else pen_down

/-! ## Helper lemmas shared by several claims -/

lemma drain_loop_getLast {α : Type} :
    ∀ (q : List α) (latest : Option α),
      drain_loop latest q
        = ((match q with | [] => latest | _ :: _ => q.getLast?), []) := by
  intro q
  induction q with
  | nil => intro latest; rfl
  | cons x xs ih =>
    intro latest
    show drain_loop (some x) xs = _
    rw [ih]
    cases xs with
    | nil => rfl
    | cons y ys => simp [List.getLast?_cons_cons]

lemma smooth_step_bounds {lo hi a b : ℚ} (ha1 : lo ≤ a) (ha2 : a ≤ hi)
    (hb1 : lo ≤ b) (hb2 : b ≤ hi) :
    lo ≤ smooth_step a b ∧ smooth_step a b ≤ hi := by
  unfold smooth_step SMOOTHING
  constructor <;> linarith

lemma clamp_bounds {lo hi : ℚ} (x : ℚ) (h : lo ≤ hi) :
    lo ≤ max lo (min hi x) ∧ max lo (min hi x) ≤ hi :=
  ⟨le_max_left _ _, max_le h (min_le_left _ _)⟩

lemma line_nums_of_strip_empty {line : List Char}
    (h : (pyStrip line).isEmpty = true) : line_nums line = some [] := by
  have h2 : pyStrip line = [] := by
    cases hp : pyStrip line with
    | nil => rfl
    | cons c cs => rw [hp] at h; simp [List.isEmpty] at h
  simp [line_nums, line_tokens, h2, py_split, splitWs_aux, List.mapM, List.mapM.loop]

/-! ## Claims -/

/-- Claim C3: on every tick that has a sample, the pen state machine goes
`Up → Down` iff `emg > threshold + hysteresis`, `Down → Up` iff
`emg < threshold - hysteresis`, and is otherwise unchanged; the next pen
state is the pure function `pen_update` of the current state, the sample's
emg, the threshold and the hysteresis, and `tick` computes it exactly so. -/
theorem pen_transition_iff :
    ∀ (emg emg_threshold hysteresis : ℚ),
      (pen_update false emg emg_threshold hysteresis = true ↔
        emg_threshold + hysteresis < emg) ∧
      (pen_update true emg emg_threshold hysteresis = false ↔
        emg < emg_threshold - hysteresis) ∧
      (∀ (screen_w screen_h : ℚ) (latest : DataItem ℚ) (st : TickState),
        (tick screen_w screen_h emg_threshold latest st).1.pen_down
          = pen_update st.pen_down latest.emg emg_threshold EMG_HYSTERESIS) := by
  intro emg t h
  refine ⟨?_, ?_, ?_⟩
  · simp [pen_update]
  · simp [pen_update]
  · intro w sh latest st
    rfl

/-- Claim C3 witness: at threshold 400, hysteresis 25, an emg of 500 pulls
the pen down. -/
theorem pen_transition_iff_witness :
    pen_update false 500 400 25 = true :=
  (pen_transition_iff 500 400 25).1.mpr (by norm_num)

/-- Claim C2 counterexample: with threshold 400 and hysteresis 25, a sample
with `emg = 426` starting from `Up` DOES transition to `Down` (the
transition fires strictly above `425`), contradicting the claimed
"emg=426 → no transition". -/
theorem emg426_transitions_down :
    pen_update false 426 EMG_THRESHOLD EMG_HYSTERESIS = true := by
  norm_num [pen_update, EMG_THRESHOLD, EMG_HYSTERESIS]

/-- Claim C2 (amended): with threshold=400 and hysteresis=25, starting in
`Up`: `emg=425` causes no transition and `emg=425.01` causes a transition
to `Down`; starting in `Down`: `emg=375` causes no transition and
`emg=374.99` causes a transition to `Up`. -/
theorem hysteresis_examples_amended :
    pen_update false 425 EMG_THRESHOLD EMG_HYSTERESIS = false ∧
    pen_update false (42501/100) EMG_THRESHOLD EMG_HYSTERESIS = true ∧
    pen_update true 375 EMG_THRESHOLD EMG_HYSTERESIS = true ∧
    pen_update true (37499/100) EMG_THRESHOLD EMG_HYSTERESIS = false := by
  norm_num [pen_update, EMG_THRESHOLD, EMG_HYSTERESIS]

/-- Claim C5: `drain_latest` removes every queued sample and returns the
most recently pushed one (`getLast?` of the FIFO list), or nothing if the
queue was empty; after pushing `A, B, C` a drain returns `C` and leaves the
queue empty, so an immediately following drain returns nothing; since a
drain empties the queue, no sample is returned by more than one drain. -/
theorem drain_latest_spec :
    (∀ (q : List (DataItem ℚ)), drain_latest q = (q.getLast?, [])) ∧
    (∀ (q : List (DataItem ℚ)) (x : DataItem ℚ),
      drain_latest (push q x) = (some x, [])) ∧
    (∀ (a b c : DataItem ℚ),
      drain_latest (push (push (push [] a) b) c) = (some c, [])) ∧
    (∀ (q : List (DataItem ℚ)), drain_latest (drain_latest q).2 = (none, [])) := by
  have key : ∀ (q : List (DataItem ℚ)), drain_latest q = (q.getLast?, []) := by
    intro q
    rw [drain_latest, drain_loop_getLast]
    cases q with
    | nil => rfl
    | cons x xs => rfl
  refine ⟨key, ?_, ?_, ?_⟩
  · intro q x
    rw [key, push, List.getLast?_concat]
  · intro a b c
    rw [key]
    rfl
  · intro q
    rw [key q]
    rfl

/-- Claim C5 witness: drain of the one-element queue returns that element
and empties the queue. -/
theorem drain_latest_spec_witness :
    drain_latest (push ([] : List (DataItem ℚ))
      { emg := 0, type := SampleKind.raw, acc := some (0, 0, 0),
        gyro := some (0, 0, 0), orient := none })
      = (some { emg := 0, type := SampleKind.raw, acc := some (0, 0, 0),
                gyro := some (0, 0, 0), orient := none }, []) :=
  drain_latest_spec.2.1 []
    { emg := 0, type := SampleKind.raw, acc := some (0, 0, 0),
      gyro := some (0, 0, 0), orient := none }

/-- Claim C6: the position filter computes, per axis,
`smoothed' = smoothed * α + target * (1 - α)`; hence against a constant
target `T` the error after `n` ticks is exactly `|S0 - T| * 0.85^n`
(`SMOOTHING = 85/100`), in the exact rational arithmetic of the model. -/
theorem smoothing_geometric_convergence :
    (∀ (s target : ℚ),
      smooth_step s target = s * SMOOTHING + target * (1 - SMOOTHING)) ∧
    (∀ (target s0 : ℚ) (n : ℕ),
      |smooth_iter target n s0 - target| = |s0 - target| * SMOOTHING ^ n) := by
  constructor
  · intro s target
    rfl
  · intro t s0 n
    induction n with
    | zero => simp [smooth_iter]
    | succ n ih =>
      have h1 : smooth_iter t (n + 1) s0 - t
          = (smooth_iter t n s0 - t) * SMOOTHING := by
        show smooth_step (smooth_iter t n s0) t - t = _
        unfold smooth_step
        ring
      rw [h1, abs_mul, ih,
        abs_of_nonneg (by norm_num [SMOOTHING] : (0:ℚ) ≤ SMOOTHING),
        pow_succ, mul_assoc]

/-- Claim C6 witness: starting at 1 against constant target 0, two ticks
leave exactly `0.85^2`. -/
theorem smoothing_geometric_convergence_witness :
    |smooth_iter 0 2 1 - 0| = |1 - 0| * SMOOTHING ^ 2 :=
  smoothing_geometric_convergence.2 0 1 2

/-- Claim C8: on a tick whose drain returns nothing, the pipeline state is
unchanged — the pen state does not transition, the smoothed and previous
cursor positions keep their values — and no draw command is emitted. -/
theorem no_sample_tick_noop :
    ∀ (screen_w screen_h emg_threshold : ℚ) (q : List (DataItem ℚ))
      (st : TickState),
      (drain_latest q).1 = none →
      consume_tick screen_w screen_h emg_threshold q st = (st, [], []) := by
  intro w h thr q st hnone
  have hq : q = [] := by
    cases q with
    | nil => rfl
    | cons x xs =>
      rw [drain_latest, drain_loop_getLast] at hnone
      simp at hnone
  subst hq
  rfl

/-- Claim C8 witness: an empty queue leaves the initial state untouched and
draws nothing. -/
theorem no_sample_tick_noop_witness :
    consume_tick 1280 720 400 [] (init_state 1280 720)
      = (init_state 1280 720, [], []) :=
  no_sample_tick_noop 1280 720 400 [] (init_state 1280 720) rfl

/-- Claim C1 counterexample: one orientation sample with a large yaw, fed to
a tick from the initial (centred) state, leaves the new cursor position —
the value stored as the previous position and used for drawing — outside
`[0, width-1] × [0, height-1]`: the smoothing step is not followed by any
clamp. -/
theorem orientation_sample_escapes_canvas :
    ¬ inBounds SCREEN_W SCREEN_H
        (tick SCREEN_W SCREEN_H EMG_THRESHOLD
          { emg := 0, type := SampleKind.orient, acc := none, gyro := none,
            orient := some (10000, 0, 0) }
          (init_state SCREEN_W SCREEN_H)).1.smooth_pos := by
  norm_num [tick, target_of, orient_to_xy, smooth_step, inBounds, init_state,
    SCREEN_W, SCREEN_H, SMOOTHING, EMG_THRESHOLD]

/-- Claim C1 (amended): the smoothing step applies no clamp of its own; the
new cursor position is the convex combination (α = 0.85) of the previous
smoothed position and the tick's target, so it stays within
`[0, width-1] × [0, height-1]` whenever the previous position and the
target both do — in particular on every tick whose sample is of the raw
kind, since `acc_to_xy` clamps its result and the no-payload fallback is
the (in-bounds) previous position.  An orientation-strategy target is not
clamped (yaw = 180 already gives x = width) and can drive the cursor out of
bounds. -/
theorem smoothing_clamp_amended :
    ∀ (screen_w screen_h emg_threshold : ℚ) (st : TickState)
      (latest : DataItem ℚ),
      1 ≤ screen_w → 1 ≤ screen_h →
      inBounds screen_w screen_h st.smooth_pos →
      inBounds screen_w screen_h st.last_pos →
      (latest.type = SampleKind.raw →
        inBounds screen_w screen_h
          (target_of screen_w screen_h st.last_pos latest)) ∧
      (inBounds screen_w screen_h
          (target_of screen_w screen_h st.last_pos latest) →
        inBounds screen_w screen_h
          (tick screen_w screen_h emg_threshold latest st).1.smooth_pos) := by
  intro w h thr st latest hw hh hs hl
  have hw1 : (0:ℚ) ≤ w - 1 := by linarith
  have hh1 : (0:ℚ) ≤ h - 1 := by linarith
  constructor
  · intro hraw
    rcases latest with ⟨e, ty, acc, gy, ori⟩
    cases ty with
    | orient => exact absurd hraw (by simp)
    | raw =>
      cases acc with
      | none =>
        rcases ori with _ | ⟨y1, p1, r1⟩
        · exact hl
        · exact hl
      | some a =>
        rcases a with ⟨a1, a2, a3⟩
        rcases ori with _ | ⟨y1, p1, r1⟩ <;>
          exact ⟨(clamp_bounds _ hw1).1, (clamp_bounds _ hw1).2,
            (clamp_bounds _ hh1).1, (clamp_bounds _ hh1).2⟩
  · intro htarget
    obtain ⟨hs1, hs2, hs3, hs4⟩ := hs
    obtain ⟨ht1, ht2, ht3, ht4⟩ := htarget
    exact ⟨(smooth_step_bounds hs1 hs2 ht1 ht2).1,
      (smooth_step_bounds hs1 hs2 ht1 ht2).2,
      (smooth_step_bounds hs3 hs4 ht3 ht4).1,
      (smooth_step_bounds hs3 hs4 ht3 ht4).2⟩

/-- Claim C1 (amended) witness: a raw sample with a huge acceleration,
ticked from the initial state of the 1280×720 canvas, still yields an
in-bounds cursor. -/
theorem smoothing_clamp_amended_witness :
    inBounds SCREEN_W SCREEN_H
      (tick SCREEN_W SCREEN_H EMG_THRESHOLD
        { emg := 0, type := SampleKind.raw, acc := some (99999, -99999, 0),
          gyro := some (0, 0, 0), orient := none }
        (init_state SCREEN_W SCREEN_H)).1.smooth_pos := by
  have h := smoothing_clamp_amended SCREEN_W SCREEN_H EMG_THRESHOLD
    (init_state SCREEN_W SCREEN_H)
    { emg := 0, type := SampleKind.raw, acc := some (99999, -99999, 0),
      gyro := some (0, 0, 0), orient := none }
    (by norm_num [SCREEN_W]) (by norm_num [SCREEN_H])
    (by norm_num [inBounds, init_state, SCREEN_W, SCREEN_H])
    (by norm_num [inBounds, init_state, SCREEN_W, SCREEN_H])
  exact h.2 (h.1 rfl)

/-- Claim C7: the acceleration strategy computes `dx = ax * s`,
`dy = -ay * s`, adds them to the previous cursor position (or to the canvas
centre when there is none), and clamps the result to
`[0, width-1] × [0, height-1]`; `az` does not affect the result, and a tick
on a raw sample ignores the gyro (and orient) fields entirely. -/
theorem acc_strategy_spec :
    ∀ (ax ay az screen_w screen_h sensitivity : ℚ)
      (last_pos : Option (ℚ × ℚ)),
      1 ≤ screen_w → 1 ≤ screen_h →
      inBounds screen_w screen_h
        (acc_to_xy ax ay az screen_w screen_h last_pos sensitivity) ∧
      (∀ az2, acc_to_xy ax ay az2 screen_w screen_h last_pos sensitivity
            = acc_to_xy ax ay az screen_w screen_h last_pos sensitivity) ∧
      (∀ p, acc_to_xy ax ay az screen_w screen_h (some p) sensitivity
          = (max 0 (min (screen_w - 1) (p.1 + ax * sensitivity)),
             max 0 (min (screen_h - 1) (p.2 + -ay * sensitivity)))) ∧
      (acc_to_xy ax ay az screen_w screen_h none sensitivity
          = (max 0 (min (screen_w - 1) (screen_w / 2 + ax * sensitivity)),
             max 0 (min (screen_h - 1) (screen_h / 2 + -ay * sensitivity)))) ∧
      (∀ (emg emg_threshold : ℚ) (st : TickState) (a : Option (ℚ × ℚ × ℚ))
         (g g2 o o2 : Option (ℚ × ℚ × ℚ)),
        tick screen_w screen_h emg_threshold
            { emg := emg, type := SampleKind.raw, acc := a, gyro := g,
              orient := o } st
          = tick screen_w screen_h emg_threshold
            { emg := emg, type := SampleKind.raw, acc := a, gyro := g2,
              orient := o2 } st) := by
  intro ax ay az w h s last_pos hw hh
  have hw1 : (0:ℚ) ≤ w - 1 := by linarith
  have hh1 : (0:ℚ) ≤ h - 1 := by linarith
  refine ⟨?_, ?_, ?_, ?_, ?_⟩
  · cases last_pos with
    | none =>
      exact ⟨(clamp_bounds _ hw1).1, (clamp_bounds _ hw1).2,
        (clamp_bounds _ hh1).1, (clamp_bounds _ hh1).2⟩
    | some p =>
      exact ⟨(clamp_bounds _ hw1).1, (clamp_bounds _ hw1).2,
        (clamp_bounds _ hh1).1, (clamp_bounds _ hh1).2⟩
  · intro az2
    rfl
  · intro p
    rfl
  · rfl
  · intro e thr st a g g2 o o2
    rcases a with _ | ⟨a1, a2, a3⟩ <;>
      rcases o with _ | ⟨o1, o2x, o3⟩ <;>
      rcases o2 with _ | ⟨p1, p2, p3⟩ <;>
      rfl

/-- Claim C7 witness: a concrete acceleration sample with the centre as
previous position lands inside the 1280×720 canvas. -/
theorem acc_strategy_spec_witness :
    inBounds 1280 720 (acc_to_xy 5 7 9 1280 720 (some (640, 360)) 20) :=
  (acc_strategy_spec 5 7 9 1280 720 20 (some (640, 360))
    (by norm_num) (by norm_num)).1

/-- Claim C4: an empty (or all-whitespace) line fails; a line with a token
that does not parse as a float fails; with `n` parsed numbers, `n ≥ 7`
yields a raw sample with `(emg, ax, ay, az, gx, gy, gz)` from the first 7
numbers (the rest ignored), `4 ≤ n < 7` an orientation sample with
`(emg, yaw, pitch, roll)` from the first 4 (the rest ignored), and `n < 4`
fails. -/
theorem parse_line_token_count_cases :
    ∀ (line : List Char),
      ((pyStrip line).isEmpty = true → parse_line line = none) ∧
      (line_nums line = none → parse_line line = none) ∧
      (∀ e a1 a2 a3 g1 g2 g3 rest,
        line_nums line = some (e :: a1 :: a2 :: a3 :: g1 :: g2 :: g3 :: rest) →
        parse_line line = some { emg := e, type := SampleKind.raw,
                                 acc := some (a1, a2, a3),
                                 gyro := some (g1, g2, g3),
                                 orient := none }) ∧
      (∀ e y p r rest, rest.length < 3 →
        line_nums line = some (e :: y :: p :: r :: rest) →
        parse_line line = some { emg := e, type := SampleKind.orient,
                                 acc := none, gyro := none,
                                 orient := some (y, p, r) }) ∧
      (∀ nums, nums.length < 4 → line_nums line = some nums →
        parse_line line = none) := by
  intro line
  by_cases hempty : (pyStrip line).isEmpty = true
  · have hnil := line_nums_of_strip_empty hempty
    refine ⟨fun _ => by simp [parse_line, hempty], fun h => by simp [parse_line, hempty],
      ?_, ?_, fun _ _ _ => by simp [parse_line, hempty]⟩
    · intro e a1 a2 a3 g1 g2 g3 rest h
      rw [hnil] at h
      simp at h
    · intro e y p r rest hlen h
      rw [hnil] at h
      simp at h
  · refine ⟨fun h => absurd h hempty, ?_, ?_, ?_, ?_⟩
    · intro hn
      simp [parse_line, hempty, hn]
    · intro e a1 a2 a3 g1 g2 g3 rest hn
      simp [parse_line, hempty, hn]
    · intro e y p r rest hlen hn
      rcases rest with _ | ⟨r1, _ | ⟨r2, _ | ⟨r3, rest⟩⟩⟩
      · simp [parse_line, hempty, hn]
      · simp [parse_line, hempty, hn]
      · simp [parse_line, hempty, hn]
      · simp only [List.length_cons] at hlen
        omega
    · intro nums hlen hn
      rcases nums with _ | ⟨n1, _ | ⟨n2, _ | ⟨n3, _ | ⟨n4, rest⟩⟩⟩⟩
      · simp [parse_line, hempty, hn]
      · simp [parse_line, hempty, hn]
      · simp [parse_line, hempty, hn]
      · simp [parse_line, hempty, hn]
      · simp only [List.length_cons] at hlen
        omega

/-- Claim C4 witness: `"120,10,-5,2"` has four numeric tokens and parses to
an orientation sample with emg 120 and orient (10, -5, 2). -/
theorem parse_line_token_count_cases_witness :
    parse_line ("120,10,-5,2".toList)
      = some { emg := PFloat.fin 120, type := SampleKind.orient, acc := none,
               gyro := none,
               orient := some (PFloat.fin 10, PFloat.fin (-5), PFloat.fin 2) } := by
  have hn : line_nums ("120,10,-5,2".toList)
      = some [PFloat.fin 120, PFloat.fin 10, PFloat.fin (-5), PFloat.fin 2] := by
    simp +decide [line_nums, line_tokens, py_split, pyStrip, splitWs_aux, pyFloat,
      digits_aux, isPySpace, List.mapM, List.mapM.loop]
  exact (parse_line_token_count_cases ("120,10,-5,2".toList)).2.2.2.1
    (PFloat.fin 120) (PFloat.fin 10) (PFloat.fin (-5)) (PFloat.fin 2) []
    (by norm_num) hn

/-- Claim C9: the embedded `parse_line` is a total pure function into an
option — every input yields either a sample or the failure value `none` —
and it fails exactly when some token does not parse as a float or when
fewer than four numbers are present (which covers the empty line). -/
theorem parse_line_failure_iff :
    ∀ (line : List Char),
      (parse_line line = none ∨ ∃ item, parse_line line = some item) ∧
      (parse_line line = none ↔
        line_nums line = none ∨
          ∃ nums, line_nums line = some nums ∧ nums.length < 4) := by
  intro line
  constructor
  · cases h : parse_line line with
    | none => exact Or.inl rfl
    | some item => exact Or.inr ⟨item, rfl⟩
  · by_cases hempty : (pyStrip line).isEmpty = true
    · have hnil := line_nums_of_strip_empty hempty
      constructor
      · intro _
        exact Or.inr ⟨[], hnil, by norm_num⟩
      · intro _
        simp [parse_line, hempty]
    · cases hn : line_nums line with
      | none => simp [parse_line, hempty, hn]
      | some nums =>
        rcases nums with _ | ⟨n1, _ | ⟨n2, _ | ⟨n3, _ | ⟨n4, _ | ⟨n5, _ | ⟨n6,
          _ | ⟨n7, rest⟩⟩⟩⟩⟩⟩⟩ <;>
          simp [parse_line, hempty, hn]

/-- Claim C9 witness: a line with a non-numeric token is dropped: the
parser returns the failure value, it does not raise. -/
theorem parse_line_failure_iff_witness :
    parse_line ("abc 1 2 3".toList) = none := by
  have hn : line_nums ("abc 1 2 3".toList) = none := by
    simp +decide [line_nums, line_tokens, py_split, pyStrip, splitWs_aux, pyFloat,
      digits_aux, isPySpace, List.mapM, List.mapM.loop]
  exact (parse_line_failure_iff ("abc 1 2 3".toList)).2.mpr (Or.inl hn)

/-- Claim C10: the parser performs no finiteness check: `"nan,0,0,0"`
parses to an orientation sample whose emg is `nan`, `"inf,1,2,3,4,5,6"` to
a raw sample whose emg is `+∞`, `"-inf,0,0,0"` to an orientation sample
whose emg is `-∞`; the non-finite emg then flows unchecked into the
hysteresis comparisons, where (with Python float semantics) a `nan` makes
both comparisons false, so the pen state never transitions. -/
theorem parse_accepts_non_finite :
    parse_line ("nan,0,0,0".toList)
      = some { emg := PFloat.nan, type := SampleKind.orient, acc := none,
               gyro := none,
               orient := some (PFloat.fin 0, PFloat.fin 0, PFloat.fin 0) } ∧
    parse_line ("inf,1,2,3,4,5,6".toList)
      = some { emg := PFloat.inf, type := SampleKind.raw,
               acc := some (PFloat.fin 1, PFloat.fin 2, PFloat.fin 3),
               gyro := some (PFloat.fin 4, PFloat.fin 5, PFloat.fin 6),
               orient := none } ∧
    parse_line ("-inf,0,0,0".toList)
      = some { emg := PFloat.ninf, type := SampleKind.orient, acc := none,
               gyro := none,
               orient := some (PFloat.fin 0, PFloat.fin 0, PFloat.fin 0) } ∧
    (∀ pen_down : Bool,
      pen_update_float pen_down PFloat.nan (PFloat.fin EMG_THRESHOLD)
        (PFloat.fin EMG_HYSTERESIS) = pen_down) := by
  refine ⟨?_, ?_, ?_, ?_⟩
  · simp +decide [parse_line, line_nums, line_tokens, py_split, pyStrip,
      splitWs_aux, pyFloat, digits_aux, isPySpace, List.mapM, List.mapM.loop]
  · simp +decide [parse_line, line_nums, line_tokens, py_split, pyStrip,
      splitWs_aux, pyFloat, digits_aux, isPySpace, List.mapM, List.mapM.loop]
  · simp +decide [parse_line, line_nums, line_tokens, py_split, pyStrip,
      splitWs_aux, pyFloat, digits_aux, isPySpace, List.mapM, List.mapM.loop]
  · intro pen_down
    cases pen_down <;> rfl
